import Mathlib

/-!
Verification development for the simple_vm bytecode interpreter (src/vm.cc).

Shallow embedding notes.
* Program bytes (`unsigned char`) are modelled as `ℕ` (values 0..255).
* `LocType` (`int64_t` in the source) is modelled as `ℤ`.  The source never
  overflows 64-bit signed arithmetic on the paths exercised here (the PC is
  bounded by the program length or produced by `Resolve`, whose results lie
  in `[-1, 2^63 - 1]`), so plain integers are faithful.
* `ValueType` (`double`) is modelled as `ℚ`.  All values manipulated by the
  claims under study are small integers or small decimal fractions, on which
  IEEE-754 double arithmetic is exact (or, for `1.2 * 10^3`, rounds back to
  the exact value), so the rational model agrees with the source on every
  input evaluated in this file.  `isnormal` is modelled as "nonzero"; the
  subnormal range (|x| < 2^-1022) is never produced by the claims' programs.
* Transcendental library routines reached through the `\`-escape opcodes
  (and `exp2`/`fmod`) have no exact rational counterpart; `step` takes them
  as an uninterpreted `LibFns` record, so theorems about non-escape opcodes
  hold for every interpretation.  No claim executes an escape opcode.
* Loops of the source are modelled with explicit fuel where the iteration
  count is not structurally evident.  `Prescan`'s branch-to-branch chase can
  genuinely diverge (see the `LaBa` development below), hence the prescan
  returns `Option`, with `none` for fuel exhaustion.
-/

namespace SimpleVM

/-- `kTerminatePc = std::numeric_limits<int64_t>::max()`. -/
def kTerminatePc : ℤ := 2 ^ 63 - 1

/-- `kTerminateByte = 'X'`. -/
def kTerminateByte : ℕ := 88

/-- `VM::ByteAt`: the byte at `loc`, or `'X'` when `loc` is outside `[0, len)`. -/
def byteAt (prog : List ℕ) (loc : ℤ) : ℕ :=
  if loc < 0 ∨ (prog.length : ℤ) ≤ loc then kTerminateByte
  else prog.getD loc.toNat kTerminateByte

/-- `VM::FixWs`: C-locale `isspace` bytes collapse to `' '` (32). -/
def fixWs (b : ℕ) : ℕ :=
  if b = 9 ∨ b = 10 ∨ b = 11 ∨ b = 12 ∨ b = 13 ∨ b = 32 then 32 else b

/-- ASCII decimal digit test (the `case '0' ... '9'` ranges of the source). -/
def isDigitB (b : ℕ) : Bool := 48 ≤ b && b ≤ 57

/-- Truncation toward zero, the semantics of C++ `int64_t(double)` /
`int(double)` on in-range arguments. -/
def ratTrunc (q : ℚ) : ℤ := if 0 ≤ q then ⌊q⌋ else -⌊-q⌋

/-- `std::clamp` on values. -/
def clampQ (x lo hi : ℚ) : ℚ := max lo (min hi x)

/-- `VM::Int`: NaN→0 (impossible in the rational model), clamp to
`[double(INT64_MIN), double(INT64_MAX)] = [-2^63, 2^63]`, truncate.  (The
upper bound is `2^63` because `double(INT64_MAX)` rounds up; the source hits
undefined behaviour when converting that bound back, a corner no claim
exercises.) -/
def intOf (v : ℚ) : ℤ := ratTrunc (clampQ v (-(2 ^ 63)) (2 ^ 63))

/-- `VM::Uint`: clamp to `[0, double(UINT64_MAX)] = [0, 2^64]`, truncate. -/
def uintOf (v : ℚ) : ℕ := (ratTrunc (clampQ v 0 (2 ^ 64))).toNat

/-- `VM::Nat`: clamp to `[0, double(INT64_MAX)] = [0, 2^63]`, truncate. -/
def natOf (v : ℚ) : ℤ := ratTrunc (clampQ v 0 (2 ^ 63))

/-- Two's-complement bitwise NOT on `int64_t`: `~p = -(p+1)` (exact, no
overflow for any in-range argument). -/
def inot (p : ℤ) : ℤ := -(p + 1)

/-- `isnormal` on the rational model: nonzero.  (Faithful except for
subnormal magnitudes, which no claim produces.) -/
def isNormalQ (v : ℚ) : Bool := v ≠ 0

/-! ### The branch-target table and the two prescan maps -/

/-- Read `branch_target_[i]` (all source reads are in range; out-of-range
reads default to the sentinel). -/
def btget (bt : List ℤ) (i : ℤ) : ℤ :=
  if 0 ≤ i then bt.getD i.toNat kTerminatePc else kTerminatePc

/-- Write `branch_target_[i] = v`. -/
def btset (bt : List ℤ) (i : ℤ) (v : ℤ) : List ℤ :=
  if 0 ≤ i then bt.set i.toNat v else bt

/-- Association-list lookup: the model of `std::map::find` (the two maps of
the VM are keyed maps; the list order never matters through `alookup`). -/
def alookup {α β : Type} [DecidableEq α] : List (α × β) → α → Option β
  | [], _ => none
  | (a, b) :: tl, k => if a = k then some b else alookup tl k

/-- Association-list insert-or-assign: the model of `std::map::operator[] =`. -/
def ainsert {α β : Type} [DecidableEq α] : List (α × β) → α → β → List (α × β)
  | [], k, v => [(k, v)]
  | (a, b) :: tl, k, v =>
    if a = k then (k, v) :: tl else (a, b) :: ainsert tl k v

theorem alookup_ainsert {α β : Type} [DecidableEq α] (m : List (α × β))
    (k : α) (v : β) (k' : α) :
    alookup (ainsert m k v) k' = if k' = k then some v else alookup m k' := by
  induction m with
  | nil =>
    by_cases h : k' = k
    · subst h; simp [ainsert, alookup]
    · have h' : ¬k = k' := fun hh => h hh.symm
      simp [ainsert, alookup, h, h']
  | cons hd tl ih =>
    rcases hd with ⟨a, b⟩
    by_cases h1 : a = k
    · subst h1
      by_cases h2 : k' = a
      · subst h2; simp [ainsert, alookup]
      · have h2' : ¬a = k' := fun hh => h2 hh.symm
        simp [ainsert, alookup, h2, h2']
    · by_cases h2 : a = k'
      · subst h2
        simp [ainsert, alookup, h1]
      · simp [ainsert, alookup, h1, h2, ih]

theorem alookup_ainsert_self {α β : Type} [DecidableEq α] (m : List (α × β))
    (k : α) (v : β) : alookup (ainsert m k v) k = some v := by
  rw [alookup_ainsert, if_pos rfl]

theorem alookup_ainsert_ne {α β : Type} [DecidableEq α] (m : List (α × β))
    (k : α) (v : β) (k' : α) (h : k' ≠ k) :
    alookup (ainsert m k v) k' = alookup m k' := by
  rw [alookup_ainsert, if_neg h]

/-- Lookup in `std::map<LocType, ValueType> predec_values_`. -/
def plookup (m : List (ℤ × ℚ)) (k : ℤ) : Option ℚ := alookup m k

/-- `predec_values_[k] = v` (insert-or-assign). -/
def pinsert (m : List (ℤ × ℚ)) (k : ℤ) (v : ℚ) : List (ℤ × ℚ) :=
  ainsert m k v

/-- Lookup in `std::map<double, LocType> global_label_` (bitwise `double`
comparison is exact rational equality in the model). -/
def glookup (m : List (ℚ × ℤ)) (k : ℚ) : Option ℤ := alookup m k

/-- `global_label_[k] = v` (insert-or-assign). -/
def ginsert (m : List (ℚ × ℤ)) (k : ℚ) (v : ℤ) : List (ℚ × ℤ) :=
  ainsert m k v

/-! ### VM state -/

/-- The mutable state of the `VM` object.  `out` records the values printed
by `'` and `!` (the output sink); `diag` records undefined-opcode
diagnostics as (opcode, PC-1) pairs. -/
structure VMState where
  prog : List ℕ
  bt : List ℤ
  predec : List (ℤ × ℚ)
  global : List (ℚ × ℤ)
  var : ℕ → ℚ
  stack : List ℚ
  pc : ℤ
  steps : ℕ
  terminate : Bool
  out : List ℚ
  diag : List (ℕ × ℤ)

/-- The state right after the constructor copies the program and sizes
`branch_target_` (before any pass runs). -/
def initState (prog : List ℕ) : VMState :=
  { prog := prog
    bt := List.replicate (prog.length + 1) kTerminatePc
    predec := []
    global := []
    var := fun _ => 0
    stack := []
    pc := 0
    steps := 0
    terminate := false
    out := []
    diag := [] }

/-! ### The inline number lexer (`VM::GetNumber`'s parsing loop) -/

/-- The lexer's state machine (`NumState` in the source). -/
inductive NumState where
  | idle | integer | fraction | exponent
deriving DecidableEq

/-- One run of `GetNumber`'s while-loop, parameterised by fuel.  Each
recursive call consumes a digit or dot at an in-range location, so fuel
`len + 1` always suffices (the zero-fuel fallback mirrors the terminator
case and is provably never reached from `lex`). -/
def lexAux (prog : List ℕ) : ℕ → ℤ → NumState → ℚ → ℚ → ℚ × ℤ
  | 0, loc, _, v, _ => (v, loc)
  | fuel + 1, loc, st, v, p =>
    let b := byteAt prog loc
    if isDigitB b then
      let d : ℚ := (b - 48 : ℕ)
      match st with
      | .idle => lexAux prog fuel (loc + 1) .integer d p
      | .integer => lexAux prog fuel (loc + 1) .integer (v * 10 + d) p
      | .fraction => lexAux prog fuel (loc + 1) .fraction (v + d / p) (p * 10)
      | .exponent => lexAux prog fuel (loc + 1) .exponent v (p * 10 + d)
    else if b = 46 then
      match st with
      | .idle => lexAux prog fuel (loc + 1) .fraction v 10
      | .integer => lexAux prog fuel (loc + 1) .fraction v 10
      | .fraction => lexAux prog fuel (loc + 1) .exponent v 0
      | .exponent => (v * 10 ^ ratTrunc p, loc + 1)
    else (v, loc)

/-- The pure parse of the literal starting at `loc`: value and end offset
(the re-parse that `GetNumber` performs on a cache miss). -/
def lex (prog : List ℕ) (loc : ℤ) : ℚ × ℤ :=
  lexAux prog (prog.length + 1) loc .idle 0 0

/-- `VM::GetNumber`: consult `predec_values_`, otherwise parse and record
`(start → value)` and `branch_target_[start+1] ← end`.  Returns the value,
the end offset, and the updated state. -/
def getNumber (s : VMState) (loc : ℤ) : ℚ × ℤ × VMState :=
  match plookup s.predec loc with
  | some v => (v, btget s.bt (loc + 1), s)
  | none =>
    let r := lex s.prog loc
    (r.1, r.2,
      { s with predec := pinsert s.predec loc r.1
               bt := btset s.bt (loc + 1) r.2 })

/-! ### Prescan pass 1 (forward) -/

/-- The forward pass of `VM::Prescan`, with fuel (each iteration advances
`loc` by at least one, so fuel `len + 1` suffices).  `recent` is the
`recent_local` array. -/
def pass1 (fuel : ℕ) (s : VMState) (recent : ℕ → ℤ) (loc : ℤ) :
    Option VMState :=
  match fuel with
  | 0 => none
  | fuel + 1 =>
    if loc = (s.prog.length : ℤ) then some s
    else
      let b := fixWs (byteAt s.prog loc)
      let loc1 := loc + 1
      if b = 76 then  -- 'L'
        pass1 fuel s
          (fun c => if c = byteAt s.prog loc1 then loc1 + 1 else recent c) loc1
      else if b = 66 then  -- 'B'
        pass1 fuel
          { s with bt := btset s.bt loc1 (recent (byteAt s.prog loc1)) }
          recent loc1
      else if b = 64 then  -- '@'
        let r := getNumber s loc1
        pass1 fuel
          { r.2.2 with global := ginsert r.2.2.global r.1 r.2.1
                       bt := btset r.2.2.bt loc1 r.2.1 }
          recent r.2.1
      else if isDigitB b || b = 46 then
        let r := getNumber s (loc1 - 1)
        pass1 fuel r.2.2 recent r.2.1
      else pass1 fuel s recent loc1

/-! ### Prescan pass 2 (reverse) -/

/-- A `{after_then, after_else}` frame of the `then_else` stack. -/
structure ThenElse where
  afterThen : ℤ
  afterElse : ℤ
deriving DecidableEq

/-- The reverse pass of `VM::Prescan`.  The recursion parameter `n` is the
current value of the loop variable `loc` (the pass processes byte `n - 1`
and counts down), so the recursion is structural.  `te` is the `then_else`
stack (head = top; the base frame is never popped). -/
def pass2 : ℕ → VMState → (ℕ → ℤ) → ℕ → ℤ → ℤ → ℤ →
    List ThenElse → VMState
  | 0, s, _, _, _, _, _, _ => s
  | n + 1, s, recent, prevbyte, lnw, lnw1, lnw2, te =>
    let lloc : ℤ := (n : ℤ) + 1
    let loc : ℤ := (n : ℤ)
    let currbyte := byteAt s.prog loc
    let bc := fixWs currbyte
    -- trailing non-whitespace, non-';' locations (shifted before dispatch)
    let sh : ℤ × ℤ × ℤ :=
      if bc ≠ 32 ∧ bc ≠ 59 then (loc, lnw, lnw1) else (lnw, lnw1, lnw2)
    let lnw' := sh.1
    let lnw1' := sh.2.1
    let lnw2' := sh.2.2
    let top := te.headD ⟨kTerminatePc, kTerminatePc⟩
    if bc = 76 then  -- 'L'
      pass2 n { s with bt := btset s.bt lloc lnw2' }
        (fun c => if c = prevbyte then loc + 2 else recent c)
        currbyte lnw' lnw1' lnw2' te
    else if bc = 70 then  -- 'F'
      pass2 n { s with bt := btset s.bt lloc (recent prevbyte) }
        recent currbyte lnw' lnw1' lnw2' te
    else if bc = 59 then  -- ';'
      pass2 n { s with bt := btset s.bt lloc lnw' }
        recent currbyte lnw' lnw1' lnw2' (⟨lnw', lnw'⟩ :: te)
    else if bc = 58 then  -- ':'
      pass2 n { s with bt := btset s.bt lloc top.afterElse }
        recent currbyte lnw' lnw1' lnw2'
        (⟨lnw1', top.afterElse⟩ :: te.tail)
    else if bc = 63 then  -- '?'
      pass2 n { s with bt := btset s.bt lloc top.afterThen }
        recent currbyte lnw' lnw1' lnw2'
        (if 1 < te.length then te.tail else te)
    else if bc = 32 then  -- normalized whitespace
      pass2 n { s with bt := btset s.bt lloc lnw' }
        recent currbyte lnw' lnw1' lnw2' te
    else
      pass2 n s recent currbyte lnw' lnw1' lnw2' te

/-! ### Prescan pass 3 (branch-to-branch collapse) -/

/-- Is `b` in the chainable set `{L, F, B, @, :, ' ', X, ;}`? -/
def chainable (b : ℕ) : Bool :=
  b = 76 || b = 70 || b = 66 || b = 64 || b = 58 || b = 32 || b = 88 || b = 59

/-- The chase loop of the branch-to-branch pass.  `bfl`/`btl` are
`branch_from_loc`/`branch_target_loc`; `froms` is `branch_froms`.  The loop
can cycle (branch targets may form a loop), hence the fuel and the `none`
result on exhaustion. -/
def chase (prog : List ℕ) (bt : List ℤ) :
    ℕ → List ℤ → ℤ → ℤ → Option (List ℤ × ℤ)
  | fuel, froms, bfl, btl =>
    if btl = kTerminatePc then some (froms, btl)
    else
      let tb := fixWs (byteAt prog btl)
      if chainable tb then
        match fuel with
        | 0 => none
        | fuel + 1 =>
          chase prog bt fuel (froms ++ [bfl]) (btl + 1)
            (if tb = 88 then kTerminatePc else btget bt (btl + 1))
      else some (froms, btl)

/-- The outer loop of the branch-to-branch pass.  `k` counts the remaining
iterations (the source walks `loc` from `0` to `len`, one byte per
iteration), `cf` is the chase fuel. -/
def pass3 (cf : ℕ) (prog : List ℕ) :
    ℕ → List ℤ → ℤ → Option (List ℤ)
  | 0, bt, _ => some bt
  | k + 1, bt, loc =>
    let from0 := loc + 1
    let tgt0 := btget bt from0
    match chase prog bt cf [] from0 tgt0 with
    | none => none
    | some (froms, tgtF) =>
      let bt' :=
        if btget bt from0 ≠ tgtF then
          froms.foldl (fun b f => btset b f tgtF) bt
        else bt
      pass3 cf prog k bt' (loc + 1)

/-- The branch-to-global-label pass: a global label pointing at a chainable
byte is redirected through the (already flattened) table. -/
def globalPass (prog : List ℕ) (bt : List ℤ) (g : List (ℚ × ℤ)) :
    List (ℚ × ℤ) :=
  g.map (fun e =>
    if chainable (fixWs (byteAt prog e.2)) then (e.1, btget bt (e.2 + 1))
    else e)

/-- `VM::Prescan` (invoked once by the constructor): the three passes plus
the global-label rewrite.  `cf` is the branch-chase fuel; `none` means the
source's collapse loop would not have terminated within that fuel. -/
def prescanF (cf : ℕ) (prog : List ℕ) : Option VMState :=
  (pass1 (prog.length + 1) (initState prog) (fun _ => kTerminatePc) 0).bind
    (fun s1 =>
      let s2 := pass2 prog.length s1 (fun _ => kTerminatePc) kTerminateByte
        kTerminatePc kTerminatePc kTerminatePc
        [⟨kTerminatePc, kTerminatePc⟩]
      (pass3 cf prog prog.length s2.bt 0).map
        (fun bt3 => { s2 with bt := bt3
                              global := globalPass prog bt3 s2.global }))

/-! ### Stack helpers -/

/-- `VM::Pop`: 0 from an empty stack.  Returns the value and the rest; the
stack's top is the list head. -/
def pop (st : List ℚ) : ℚ × List ℚ :=
  match st with
  | [] => (0, [])
  | a :: t => (a, t)

/-- The effect of `VM::Top()` on an empty stack: push a 0 first. -/
def ensureTop (st : List ℚ) : List ℚ :=
  match st with
  | [] => [0]
  | st => st

/-- `VM::OneOp`: `Top() = fxn(Top())`. -/
def oneOp (f : ℚ → ℚ) (st : List ℚ) : List ℚ :=
  match st with
  | [] => [f 0]
  | a :: t => f a :: t

/-- `VM::TwoOp`: `rhs = Pop(); Top() = fxn(Top(), rhs)`. -/
def twoOp (f : ℚ → ℚ → ℚ) (st : List ℚ) : List ℚ :=
  let r := pop st
  oneOp (fun x => f x r.1) r.2

/-- `VM::TwoOpUint`: both operands through `Uint`, result back to a value. -/
def twoOpUint (f : ℕ → ℕ → ℕ) (st : List ℚ) : List ℚ :=
  let r := pop st
  oneOp (fun x => ((f (uintOf x) (uintOf r.1) : ℕ) : ℚ)) r.2

/-- `VM::DropN`. -/
def dropN (n : ℤ) (st : List ℚ) : List ℚ :=
  if 0 < n ∧ n < (st.length : ℤ) then st.drop n.toNat
  else if (st.length : ℤ) ≤ n then []
  else st

/-- `VM::Rotate`: extract the `n`-th element from the top and re-push it. -/
def rotate (n : ℤ) (st : List ℚ) : List ℚ :=
  if (st.length : ℤ) ≤ n then 0 :: st
  else if 0 < n then st.getD n.toNat 0 :: st.eraseIdx n.toNat
  else st

/-- `VM::Resolve`: negative values are complemented PCs, positive normal
values are global-label keys, anything else terminates. -/
def resolve (g : List (ℚ × ℤ)) (v : ℚ) : ℤ :=
  if v < 0 then inot (intOf v)
  else if isNormalQ v then (glookup g v).getD kTerminatePc
  else kTerminatePc

/-- `VM::NextByte`: the byte at the PC, advancing it; `'X'` without
advancing when the PC is out of range. -/
def nextByte (s : VMState) : ℕ × VMState :=
  if s.pc < 0 ∨ (s.prog.length : ℤ) ≤ s.pc then (kTerminateByte, s)
  else (s.prog.getD s.pc.toNat kTerminateByte, { s with pc := s.pc + 1 })

/-! ### The step executor -/

/-- The floating-point library routines reached by `\`-escape opcodes (plus
`exp2` and `fmod` from the base set).  They have no exact rational
counterpart, so `step` is parameterised by an arbitrary interpretation; no
claim in this development executes any of them. -/
structure LibFns where
  fpow : ℚ → ℚ → ℚ
  fhypot : ℚ → ℚ → ℚ
  fhypot3 : ℚ → ℚ → ℚ → ℚ
  fatan2 : ℚ → ℚ → ℚ
  ffmod : ℚ → ℚ → ℚ
  fldexp : ℚ → ℚ → ℚ
  fcopysign : ℚ → ℚ → ℚ
  fexp2 : ℚ → ℚ
  fsin : ℚ → ℚ
  fasin : ℚ → ℚ
  fcos : ℚ → ℚ
  facos : ℚ → ℚ
  ftan : ℚ → ℚ
  fatan : ℚ → ℚ
  fsinh : ℚ → ℚ
  fasinh : ℚ → ℚ
  fcosh : ℚ → ℚ
  facosh : ℚ → ℚ
  ftanh : ℚ → ℚ
  fatanh : ℚ → ℚ
  ferf : ℚ → ℚ
  ferfc : ℚ → ℚ
  ftgamma : ℚ → ℚ
  flgamma : ℚ → ℚ
  fexp : ℚ → ℚ
  flog : ℚ → ℚ
  flog2 : ℚ → ℚ
  fsqrt : ℚ → ℚ
  fcbrt : ℚ → ℚ
  fceil : ℚ → ℚ
  ffloor : ℚ → ℚ
  ftrunc : ℚ → ℚ
  ffabs : ℚ → ℚ
  fround : ℚ → ℚ
  fnearbyint : ℚ → ℚ
  ffrexpm : ℚ → ℚ
  ffrexpe : ℚ → ℚ
  fmodff : ℚ → ℚ
  fmodfi : ℚ → ℚ

/-- The all-zero interpretation, used for concrete runs (which never reach
an escape opcode). -/
def defaultLib : LibFns :=
  { fpow := fun _ _ => 0, fhypot := fun _ _ => 0
    fhypot3 := fun _ _ _ => 0, fatan2 := fun _ _ => 0
    ffmod := fun _ _ => 0, fldexp := fun _ _ => 0
    fcopysign := fun _ _ => 0, fexp2 := fun _ => 0
    fsin := fun _ => 0, fasin := fun _ => 0, fcos := fun _ => 0
    facos := fun _ => 0, ftan := fun _ => 0, fatan := fun _ => 0
    fsinh := fun _ => 0, fasinh := fun _ => 0, fcosh := fun _ => 0
    facosh := fun _ => 0, ftanh := fun _ => 0, fatanh := fun _ => 0
    ferf := fun _ => 0, ferfc := fun _ => 0, ftgamma := fun _ => 0
    flgamma := fun _ => 0, fexp := fun _ => 0, flog := fun _ => 0
    flog2 := fun _ => 0, fsqrt := fun _ => 0, fcbrt := fun _ => 0
    fceil := fun _ => 0, ffloor := fun _ => 0, ftrunc := fun _ => 0
    ffabs := fun _ => 0, fround := fun _ => 0, fnearbyint := fun _ => 0
    ffrexpm := fun _ => 0, ffrexpe := fun _ => 0
    fmodff := fun _ => 0, fmodfi := fun _ => 0 }

/-- The dispatch switch of `VM::Step`, on the (whitespace-normalized,
escape-expanded) opcode `bc`; the PC has already advanced past the fetch. -/
def dispatch (lib : LibFns) (s : VMState) (bc : ℕ) : VMState :=
  match bc with
  | 88 => { s with terminate := true }  -- 'X'
  | 48 | 49 | 50 | 51 | 52 | 53 | 54 | 55 | 56 | 57 | 46 =>  -- digits, '.'
    let r := getNumber s (s.pc - 1)
    { r.2.2 with pc := r.2.1, stack := r.1 :: r.2.2.stack }
  | 97 | 98 | 99 | 100 | 101 | 102 | 103 | 104 | 105 | 106 | 107 | 108
  | 109 | 110 | 111 | 112 | 113 | 114 | 115 | 116 | 117 | 118 | 119 | 120
  | 121 | 122 =>  -- 'a'..'z'
    { s with stack := s.var bc :: s.stack }
  | 43 => { s with stack := twoOp (· + ·) s.stack }      -- '+'
  | 45 => { s with stack := twoOp (· - ·) s.stack }      -- '-'
  | 42 => { s with stack := twoOp (· * ·) s.stack }      -- '*'
  | 47 => { s with stack := twoOp (· / ·) s.stack }      -- '/'
  | 126 => { s with stack := oneOp (fun x => -x) s.stack }  -- '~'
  | 37 => { s with stack := twoOp lib.ffmod s.stack }    -- '%'
  | 38 => { s with stack := twoOpUint Nat.land s.stack } -- '&'
  | 124 => { s with stack := twoOpUint Nat.lor s.stack } -- '|'
  | 94 => { s with stack := twoOpUint Nat.xor s.stack }  -- '^'
  | 60 =>  -- '<': Top() *= exp2(rhs)
    let r := pop s.stack
    { s with stack := oneOp (fun x => x * lib.fexp2 r.1) r.2 }
  | 62 =>  -- '>': Top() /= exp2(rhs)
    let r := pop s.stack
    { s with stack := oneOp (fun x => x / lib.fexp2 r.1) r.2 }
  | 39 =>  -- '\'': print top, non-destructive
    let st := ensureTop s.stack
    { s with stack := st, out := s.out ++ [st.headD 0] }
  | 33 =>  -- '!': print variable named by next byte
    let nb := nextByte s
    { nb.2 with out := nb.2.out ++ [nb.2.var nb.1] }
  | 67 =>  -- 'C': call
    let r := pop s.stack
    let dst := resolve s.global r.1
    { s with stack := ((inot s.pc : ℤ) : ℚ) :: r.2, pc := dst }
  | 71 =>  -- 'G': go
    let r := pop s.stack
    { s with stack := r.2, pc := resolve s.global r.1 }
  | 73 => { s with stack := oneOp (fun x => ((intOf x : ℤ) : ℚ)) s.stack }
  | 85 => { s with stack := oneOp (fun x => ((uintOf x : ℕ) : ℚ)) s.stack }
  | 77 =>  -- 'M': store into variable named by next byte
    let nb := nextByte s
    let r := pop nb.2.stack
    { nb.2 with stack := r.2
                var := fun c => if c = nb.1 then r.1 else nb.2.var c }
  | 86 =>  -- 'V': push variable named by next byte
    let nb := nextByte s
    { nb.2 with stack := nb.2.var nb.1 :: nb.2.stack }
  | 68 =>  -- 'D': duplicate
    let st := ensureTop s.stack
    { s with stack := st.headD 0 :: st }
  | 80 => { s with stack := (pop s.stack).2 }  -- 'P'
  | 81 =>  -- 'Q'
    let r := pop s.stack
    { s with stack := dropN (natOf r.1) r.2 }
  | 82 =>  -- 'R'
    let r := pop s.stack
    { s with stack := rotate (natOf r.1) r.2 }
  | 83 =>  -- 'S': swap top two
    let a := pop s.stack
    let b := pop a.2
    { s with stack := b.1 :: a.1 :: b.2 }
  | 63 =>  -- '?': branch if negative
    let r := pop s.stack
    if r.1 < 0 then { s with stack := r.2, pc := btget s.bt s.pc }
    else { s with stack := r.2 }
  | 76 | 64 | 58 | 66 | 70 | 32 | 59 =>  -- 'L' '@' ':' 'B' 'F' ' ' ';'
    { s with pc := btget s.bt s.pc }
  -- Library escapes (byte + 256).
  | 350 => { s with stack := twoOp lib.fpow s.stack }
  | 360 => { s with stack := twoOp lib.fhypot s.stack }
  | 328 =>  -- Esc('H'): three-operand hypot
    let x := pop s.stack
    let y := pop x.2
    { s with stack := oneOp (fun t => lib.fhypot3 t y.1 x.1) y.2 }
  | 353 => { s with stack := twoOp lib.fatan2 s.stack }
  | 371 => { s with stack := oneOp lib.fsin s.stack }
  | 339 => { s with stack := oneOp lib.fasin s.stack }
  | 355 => { s with stack := oneOp lib.fcos s.stack }
  | 323 => { s with stack := oneOp lib.facos s.stack }
  | 372 => { s with stack := oneOp lib.ftan s.stack }
  | 340 => { s with stack := oneOp lib.fatan s.stack }
  | 376 => { s with stack := oneOp lib.fsinh s.stack }
  | 344 => { s with stack := oneOp lib.fasinh s.stack }
  | 377 => { s with stack := oneOp lib.fcosh s.stack }
  | 345 => { s with stack := oneOp lib.facosh s.stack }
  | 378 => { s with stack := oneOp lib.ftanh s.stack }
  | 346 => { s with stack := oneOp lib.fatanh s.stack }
  | 374 => { s with stack := oneOp lib.ferf s.stack }
  | 342 => { s with stack := oneOp lib.ferfc s.stack }
  | 373 => { s with stack := oneOp lib.ftgamma s.stack }
  | 341 => { s with stack := oneOp lib.flgamma s.stack }
  | 357 => { s with stack := oneOp lib.fexp s.stack }
  | 364 => { s with stack := oneOp lib.flog s.stack }
  | 306 => { s with stack := oneOp lib.flog2 s.stack }
  | 369 => { s with stack := oneOp lib.fsqrt s.stack }
  | 307 => { s with stack := oneOp lib.fcbrt s.stack }
  | 318 => { s with stack := oneOp lib.fceil s.stack }
  | 316 => { s with stack := oneOp lib.ffloor s.stack }
  | 351 => { s with stack := oneOp lib.ftrunc s.stack }
  | 380 => { s with stack := oneOp lib.ffabs s.stack }
  | 361 => { s with stack := oneOp lib.fround s.stack }
  | 329 => { s with stack := oneOp lib.fnearbyint s.stack }
  | 358 =>  -- Esc('f'): frexp
    let st := ensureTop s.stack
    let h := st.headD 0
    { s with stack := lib.ffrexpe h :: lib.ffrexpm h :: st.tail }
  | 326 => { s with stack := twoOp lib.fldexp s.stack }  -- Esc('F')
  | 365 =>  -- Esc('m'): modf
    let st := ensureTop s.stack
    let h := st.headD 0
    { s with stack := lib.fmodfi h :: lib.fmodff h :: st.tail }
  | 301 =>  -- Esc('-'): signbit as 0/1
    { s with stack := oneOp (fun x => if x < 0 then 1 else 0) s.stack }
  | 299 => { s with stack := twoOp lib.fcopysign s.stack }  -- Esc('+')
  | _ =>
    { s with diag := s.diag ++ [(bc, s.pc - 1)], terminate := true }

/-- `VM::Step`: fetch, normalize whitespace, expand a `\` escape, dispatch. -/
def step (lib : LibFns) (s : VMState) : VMState :=
  let nb := nextByte s
  let s1 := { nb.2 with steps := nb.2.steps + 1 }
  let bc := fixWs nb.1
  if bc = 92 then
    let nb2 := nextByte s1
    dispatch lib nb2.2 (nb2.1 + 256)
  else dispatch lib s1 bc

/-- `VM::Run`, bounded by fuel: reset the terminate flag, step, repeat until
the flag is set.  The boolean reports whether the loop exited (normal
termination) within the fuel. -/
def runF (lib : LibFns) : ℕ → VMState → VMState × Bool
  | 0, s => (s, false)
  | n + 1, s =>
    let s' := step lib { s with terminate := false }
    if s'.terminate then (s', true) else runF lib n s'

/-! ### Generic staging lemmas

Concrete prescans are evaluated stage by stage (the chase pass is evaluated
in chunks of a few iterations); these lemmas glue the stages together
without re-evaluating anything. -/

theorem pass3_add (cf : ℕ) (p : List ℕ) (a b : ℕ) :
    ∀ (bt : List ℤ) (loc : ℤ),
      pass3 cf p (a + b) bt loc =
        (pass3 cf p a bt loc).bind fun bt2 => pass3 cf p b bt2 (loc + a) := by
  induction a with
  | zero =>
    intro bt loc
    simp [pass3]
  | succ a ih =>
    intro bt loc
    have h : a + 1 + b = a + b + 1 := by omega
    rw [h]
    simp only [pass3]
    rcases hc : chase p bt cf [] (loc + 1) (btget bt (loc + 1)) with _ | ⟨froms, tgtF⟩
    · simp
    · simp only [ih]
      have h2 : loc + 1 + (a : ℤ) = loc + ((a : ℕ) + 1 : ℕ) := by push_cast; ring
      rw [h2]

theorem pass3_split (cf : ℕ) (p : List ℕ) (a b k : ℕ) (hk : k = a + b)
    (bt btMid btFin : List ℤ) (loc loc2 : ℤ) (hl : loc2 = loc + a)
    (h1 : pass3 cf p a bt loc = some btMid)
    (h2 : pass3 cf p b btMid loc2 = some btFin) :
    pass3 cf p k bt loc = some btFin := by
  subst hk hl
  rw [pass3_add cf p a b bt loc, h1, Option.some_bind, h2]

theorem prescanF_eq (cf : ℕ) (p : List ℕ) (s1 s2 : VMState) (bt3 : List ℤ)
    (h1 : pass1 (p.length + 1) (initState p) (fun _ => kTerminatePc) 0 = some s1)
    (h2 : pass2 p.length s1 (fun _ => kTerminatePc) kTerminateByte
      kTerminatePc kTerminatePc kTerminatePc
      [⟨kTerminatePc, kTerminatePc⟩] = s2)
    (h3 : pass3 cf p p.length s2.bt 0 = some bt3) :
    prescanF cf p =
      some { s2 with bt := bt3, global := globalPass p bt3 s2.global } := by
  unfold prescanF
  rw [h1, Option.some_bind]
  simp only [h2, h3, Option.map_some']

theorem prescanF_eq_none (cf : ℕ) (p : List ℕ) (s1 s2 : VMState)
    (h1 : pass1 (p.length + 1) (initState p) (fun _ => kTerminatePc) 0 = some s1)
    (h2 : pass2 p.length s1 (fun _ => kTerminatePc) kTerminateByte
      kTerminatePc kTerminatePc kTerminatePc
      [⟨kTerminatePc, kTerminatePc⟩] = s2)
    (h3 : pass3 cf p p.length s2.bt 0 = none) :
    prescanF cf p = none := by
  unfold prescanF
  rw [h1, Option.some_bind]
  simp only [h2, h3, Option.map_none']

/-! ### Concrete programs from the claims -/

/-- `1 ? 2 ' : 3 ' ;` (spec scenario 5). -/
def c1prog : List ℕ := [49, 32, 63, 32, 50, 32, 39, 32, 58, 32, 51, 32, 39, 32, 59]

/-- `1.2.3 '` (spec scenario 3). -/
def c2prog : List ℕ := [49, 46, 50, 46, 51, 32, 39]

/-- `9~G`: pushes 9, negates, jumps to `~Int(-9) = 8`, outside the image. -/
def c3prog : List ℕ := [57, 126, 71]

/-- `LaBa`: the backward branch at 2 resolves to offset 2 (the `B` itself),
so the branch-to-branch chase cycles. -/
def labaProg : List ℕ := [76, 97, 66, 97]

/-- `@1X`: the global label `1` ends at offset 2, whose byte `X` is
chainable, so the branch-to-global pass rewrites it. -/
def c5prog : List ℕ := [64, 49, 88]

/-- `LaXBa`: `B a` at offset 3 resolves to `i+2 = 2`, whose byte `X` is
chainable, so the collapse pass rewrites the entry to the sentinel. -/
def c6prog : List ℕ := [76, 97, 88, 66, 97]

/-- `1 '`: the literal's cached end is 1 before the collapse pass and 2
after it. -/
def c8prog : List ℕ := [49, 32, 39]

/-! #### Prescan of `c1prog`, staged -/

def s1c1 : VMState :=
  { initState c1prog with
    bt := [kTerminatePc, 1, kTerminatePc, kTerminatePc, kTerminatePc, 5,
      kTerminatePc, kTerminatePc, kTerminatePc, kTerminatePc, kTerminatePc,
      11, kTerminatePc, kTerminatePc, kTerminatePc, kTerminatePc]
    predec := [(0, 1), (4, 2), (10, 3)] }

def bt2c1 : List ℤ := [kTerminatePc, 1, 2, 10, 4, 5, 6, kTerminatePc, 8,
  kTerminatePc, 10, 11, 12, kTerminatePc, kTerminatePc, kTerminatePc]

def s2c1 : VMState := { s1c1 with bt := bt2c1 }

def btAc1 : List ℤ := [kTerminatePc, 2, 2, 10, 4, 5, 6, kTerminatePc, 8,
  kTerminatePc, 10, 11, 12, kTerminatePc, kTerminatePc, kTerminatePc]

def btBc1 : List ℤ := [kTerminatePc, 2, 2, 10, 4, 6, 6, kTerminatePc,
  kTerminatePc, kTerminatePc, 10, 11, 12, kTerminatePc, kTerminatePc,
  kTerminatePc]

def btCc1 : List ℤ := [kTerminatePc, 2, 2, 10, 4, 6, 6, kTerminatePc,
  kTerminatePc, kTerminatePc, 10, 12, 12, kTerminatePc, kTerminatePc,
  kTerminatePc]

def sFc1 : VMState :=
  { s2c1 with bt := btCc1, global := globalPass c1prog btCc1 s2c1.global }

theorem c1p1 : pass1 (c1prog.length + 1) (initState c1prog)
    (fun _ => kTerminatePc) 0 = some s1c1 := rfl

theorem c1p2 : pass2 c1prog.length s1c1 (fun _ => kTerminatePc) kTerminateByte
    kTerminatePc kTerminatePc kTerminatePc
    [⟨kTerminatePc, kTerminatePc⟩] = s2c1 := rfl

theorem s2c1bt : s2c1.bt = bt2c1 := rfl

theorem c1p3a : pass3 8 c1prog 4 bt2c1 0 = some btAc1 := rfl

theorem c1p3b : pass3 8 c1prog 4 btAc1 4 = some btBc1 := rfl

theorem c1p3c : pass3 8 c1prog 4 btBc1 8 = some btCc1 := rfl

theorem c1p3d : pass3 8 c1prog 3 btCc1 12 = some btCc1 := rfl

theorem c1p3 : pass3 8 c1prog c1prog.length bt2c1 0 = some btCc1 := by
  show pass3 8 c1prog 15 bt2c1 0 = some btCc1
  exact pass3_split 8 c1prog 4 11 15 rfl bt2c1 btAc1 btCc1 0 4 rfl c1p3a
    (pass3_split 8 c1prog 4 7 11 rfl btAc1 btBc1 btCc1 4 8 rfl c1p3b
      (pass3_split 8 c1prog 4 3 7 rfl btBc1 btCc1 btCc1 8 12 rfl c1p3c c1p3d))

theorem prescanC1 : prescanF 8 c1prog = some sFc1 :=
  prescanF_eq 8 c1prog s1c1 s2c1 btCc1 c1p1 c1p2 (by rw [s2c1bt]; exact c1p3)

/-! #### Prescan of `c2prog`, staged -/

def s1c2 : VMState :=
  { initState c2prog with
    bt := [kTerminatePc, 5, kTerminatePc, kTerminatePc, kTerminatePc,
      kTerminatePc, kTerminatePc, kTerminatePc]
    predec := [(0, 6/5)] }

def bt2c2 : List ℤ := [kTerminatePc, 5, kTerminatePc, kTerminatePc,
  kTerminatePc, kTerminatePc, 6, kTerminatePc]

def s2c2 : VMState := { s1c2 with bt := bt2c2 }

def btFc2 : List ℤ := [kTerminatePc, 6, kTerminatePc, kTerminatePc,
  kTerminatePc, kTerminatePc, 6, kTerminatePc]

def sFc2 : VMState :=
  { s2c2 with bt := btFc2, global := globalPass c2prog btFc2 s2c2.global }

theorem c2p1 : pass1 (c2prog.length + 1) (initState c2prog)
    (fun _ => kTerminatePc) 0 = some s1c2 := by with_unfolding_all rfl

theorem c2p2 : pass2 c2prog.length s1c2 (fun _ => kTerminatePc) kTerminateByte
    kTerminatePc kTerminatePc kTerminatePc
    [⟨kTerminatePc, kTerminatePc⟩] = s2c2 := by with_unfolding_all rfl

theorem s2c2bt : s2c2.bt = bt2c2 := rfl

theorem c2p3a : pass3 8 c2prog 4 bt2c2 0 = some btFc2 := rfl

theorem c2p3b : pass3 8 c2prog 3 btFc2 4 = some btFc2 := rfl

theorem c2p3 : pass3 8 c2prog c2prog.length bt2c2 0 = some btFc2 := by
  show pass3 8 c2prog 7 bt2c2 0 = some btFc2
  exact pass3_split 8 c2prog 4 3 7 rfl bt2c2 btFc2 btFc2 0 4 rfl c2p3a c2p3b

theorem prescanC2 : prescanF 8 c2prog = some sFc2 :=
  prescanF_eq 8 c2prog s1c2 s2c2 btFc2 c2p1 c2p2 (by rw [s2c2bt]; exact c2p3)

/-! #### Prescan of `c3prog` -/

def s1c3 : VMState :=
  { initState c3prog with
    bt := [kTerminatePc, 1, kTerminatePc, kTerminatePc]
    predec := [(0, 9)] }

def bt2c3 : List ℤ := [kTerminatePc, 1, kTerminatePc, kTerminatePc]

def s2c3 : VMState := { s1c3 with bt := bt2c3 }

def sFc3 : VMState :=
  { s2c3 with bt := bt2c3, global := globalPass c3prog bt2c3 s2c3.global }

theorem c3p1 : pass1 (c3prog.length + 1) (initState c3prog)
    (fun _ => kTerminatePc) 0 = some s1c3 := rfl

theorem c3p2 : pass2 c3prog.length s1c3 (fun _ => kTerminatePc) kTerminateByte
    kTerminatePc kTerminatePc kTerminatePc
    [⟨kTerminatePc, kTerminatePc⟩] = s2c3 := rfl

theorem c3p3 : pass3 8 c3prog c3prog.length s2c3.bt 0 = some bt2c3 := rfl

theorem prescanC3 : prescanF 8 c3prog = some sFc3 :=
  prescanF_eq 8 c3prog s1c3 s2c3 bt2c3 c3p1 c3p2 c3p3

/-! #### Prescan of `labaProg` (passes 1 and 2; pass 3 diverges) -/

def s1laba : VMState :=
  { initState labaProg with
    bt := [kTerminatePc, kTerminatePc, kTerminatePc, 2, kTerminatePc] }

def bt2laba : List ℤ := [kTerminatePc, 2, kTerminatePc, 2, kTerminatePc]

def s2laba : VMState := { s1laba with bt := bt2laba }

theorem labap1 : pass1 (labaProg.length + 1) (initState labaProg)
    (fun _ => kTerminatePc) 0 = some s1laba := rfl

theorem labap2 : pass2 labaProg.length s1laba (fun _ => kTerminatePc)
    kTerminateByte kTerminatePc kTerminatePc kTerminatePc
    [⟨kTerminatePc, kTerminatePc⟩] = s2laba := rfl

/-- The chase loop on `LaBa` from `branch_from_loc = 3`,
`branch_target_loc = 2` steps to itself (the byte at 2 is the chainable `B`
and `branch_target[3] = 2`), so it exhausts any fuel. -/
theorem laba_cycle : ∀ (fuel : ℕ) (froms : List ℤ),
    chase labaProg bt2laba fuel froms 3 2 = none := by
  intro fuel
  induction fuel with
  | zero => intro froms; rfl
  | succ fuel ih =>
    intro froms
    have hstep : chase labaProg bt2laba (fuel + 1) froms 3 2 =
        chase labaProg bt2laba fuel (froms ++ [3]) 3 2 := rfl
    rw [hstep]
    exact ih (froms ++ [3])

/-- The chase started by the collapse pass at `loc = 0` on `LaBa` also
exhausts any fuel (its first step enters the cycle). -/
theorem laba_chase0 : ∀ (cf : ℕ),
    chase labaProg bt2laba cf [] (0 + 1) (btget bt2laba (0 + 1)) = none := by
  intro cf
  match cf with
  | 0 => rfl
  | cf + 1 =>
    have hstep : chase labaProg bt2laba (cf + 1) [] (0 + 1)
        (btget bt2laba (0 + 1)) =
        chase labaProg bt2laba cf [1] 3 2 := rfl
    rw [hstep]
    exact laba_cycle cf [1]

/-- Pass 3 on `LaBa` returns `none` whatever the fuel. -/
theorem laba_p3 : ∀ (cf : ℕ),
    pass3 cf labaProg labaProg.length s2laba.bt 0 = none := by
  intro cf
  show pass3 cf labaProg (3 + 1) bt2laba 0 = none
  simp only [pass3]
  rw [laba_chase0 cf]

theorem prescanLaba : ∀ (cf : ℕ), prescanF cf labaProg = none := fun cf =>
  prescanF_eq_none cf labaProg s1laba s2laba labap1 labap2 (laba_p3 cf)

/-! #### Prescan of `c5prog` -/

def s1c5 : VMState :=
  { initState c5prog with
    bt := [kTerminatePc, 2, 2, kTerminatePc]
    predec := [(1, 1)]
    global := [(1, 2)] }

def bt2c5 : List ℤ := [kTerminatePc, 2, 2, kTerminatePc]

def s2c5 : VMState := { s1c5 with bt := bt2c5 }

def btFc5 : List ℤ := [kTerminatePc, kTerminatePc, kTerminatePc,
  kTerminatePc]

def sFc5 : VMState :=
  { s2c5 with bt := btFc5, global := globalPass c5prog btFc5 s2c5.global }

theorem c5p1 : pass1 (c5prog.length + 1) (initState c5prog)
    (fun _ => kTerminatePc) 0 = some s1c5 := rfl

theorem c5p2 : pass2 c5prog.length s1c5 (fun _ => kTerminatePc) kTerminateByte
    kTerminatePc kTerminatePc kTerminatePc
    [⟨kTerminatePc, kTerminatePc⟩] = s2c5 := rfl

theorem c5p3 : pass3 8 c5prog c5prog.length s2c5.bt 0 = some btFc5 := rfl

theorem prescanC5 : prescanF 8 c5prog = some sFc5 :=
  prescanF_eq 8 c5prog s1c5 s2c5 btFc5 c5p1 c5p2 c5p3

/-! #### Prescan of `c6prog` -/

def s1c6 : VMState :=
  { initState c6prog with
    bt := [kTerminatePc, kTerminatePc, kTerminatePc, kTerminatePc, 2,
      kTerminatePc] }

def bt2c6 : List ℤ := [kTerminatePc, 2, kTerminatePc, kTerminatePc, 2,
  kTerminatePc]

def s2c6 : VMState := { s1c6 with bt := bt2c6 }

def btFc6 : List ℤ := [kTerminatePc, kTerminatePc, kTerminatePc,
  kTerminatePc, kTerminatePc, kTerminatePc]

def sFc6 : VMState :=
  { s2c6 with bt := btFc6, global := globalPass c6prog btFc6 s2c6.global }

theorem c6p1 : pass1 (c6prog.length + 1) (initState c6prog)
    (fun _ => kTerminatePc) 0 = some s1c6 := rfl

theorem c6p2 : pass2 c6prog.length s1c6 (fun _ => kTerminatePc) kTerminateByte
    kTerminatePc kTerminatePc kTerminatePc
    [⟨kTerminatePc, kTerminatePc⟩] = s2c6 := rfl

theorem c6p3 : pass3 8 c6prog c6prog.length s2c6.bt 0 = some btFc6 := rfl

theorem prescanC6 : prescanF 8 c6prog = some sFc6 :=
  prescanF_eq 8 c6prog s1c6 s2c6 btFc6 c6p1 c6p2 c6p3

/-! #### Prescan of `c8prog` -/

def s1c8 : VMState :=
  { initState c8prog with
    bt := [kTerminatePc, 1, kTerminatePc, kTerminatePc]
    predec := [(0, 1)] }

def bt2c8 : List ℤ := [kTerminatePc, 1, 2, kTerminatePc]

def s2c8 : VMState := { s1c8 with bt := bt2c8 }

def btFc8 : List ℤ := [kTerminatePc, 2, 2, kTerminatePc]

def sFc8 : VMState :=
  { s2c8 with bt := btFc8, global := globalPass c8prog btFc8 s2c8.global }

theorem c8p1 : pass1 (c8prog.length + 1) (initState c8prog)
    (fun _ => kTerminatePc) 0 = some s1c8 := rfl

theorem c8p2 : pass2 c8prog.length s1c8 (fun _ => kTerminatePc) kTerminateByte
    kTerminatePc kTerminatePc kTerminatePc
    [⟨kTerminatePc, kTerminatePc⟩] = s2c8 := rfl

theorem c8p3 : pass3 8 c8prog c8prog.length s2c8.bt 0 = some btFc8 := rfl

theorem prescanC8 : prescanF 8 c8prog = some sFc8 :=
  prescanF_eq 8 c8prog s1c8 s2c8 btFc8 c8p1 c8p2 c8p3

/-! ### General facts about single steps -/

theorem nextByte_in (s : VMState) (h : byteAt s.prog s.pc ≠ kTerminateByte) :
    nextByte s = (byteAt s.prog s.pc, { s with pc := s.pc + 1 }) := by
  by_cases hc : s.pc < 0 ∨ (s.prog.length : ℤ) ≤ s.pc
  · exact absurd (by simp [byteAt, hc]) h
  · simp [nextByte, byteAt, hc]

theorem nextByte_out (s : VMState) (h : s.pc < 0 ∨ (s.prog.length : ℤ) ≤ s.pc) :
    nextByte s = (kTerminateByte, s) := by
  simp [nextByte, h]

theorem dispatch_X (lib : LibFns) (s : VMState) :
    dispatch lib s 88 = { s with terminate := true } := rfl

theorem dispatch_P (lib : LibFns) (s : VMState) :
    dispatch lib s 80 = { s with stack := (pop s.stack).2 } := rfl

theorem dispatch_plus (lib : LibFns) (s : VMState) :
    dispatch lib s 43 = { s with stack := twoOp (· + ·) s.stack } := rfl

theorem dispatch_C (lib : LibFns) (s : VMState) :
    dispatch lib s 67 =
      { s with stack := ((inot s.pc : ℤ) : ℚ) :: (pop s.stack).2
               pc := resolve s.global (pop s.stack).1 } := rfl

theorem dispatch_G (lib : LibFns) (s : VMState) :
    dispatch lib s 71 =
      { s with stack := (pop s.stack).2
               pc := resolve s.global (pop s.stack).1 } := rfl

/-- A step from a PC outside `[0, len)` fetches `X`, terminates, and leaves
the PC unchanged. -/
theorem step_out (lib : LibFns) (s : VMState)
    (h : s.pc < 0 ∨ (s.prog.length : ℤ) ≤ s.pc) :
    (step lib s).terminate = true ∧ (step lib s).pc = s.pc := by
  have hb : fixWs kTerminateByte = 88 := by norm_num [fixWs, kTerminateByte]
  simp [step, nextByte_out s h, hb, dispatch_X]

/-- `P` on an empty stack leaves it empty. -/
theorem step_P (lib : LibFns) (s : VMState) (h : byteAt s.prog s.pc = 80)
    (hst : s.stack = []) : (step lib s).stack = [] := by
  have hb : fixWs 80 = 80 := by norm_num [fixWs]
  simp [step, nextByte_in s (by rw [h]; decide), h, hb, dispatch_P, pop, hst]

/-- `+` on an empty stack leaves the single value `0 + 0 = 0`. -/
theorem step_plus (lib : LibFns) (s : VMState) (h : byteAt s.prog s.pc = 43)
    (hst : s.stack = []) : (step lib s).stack = [0] := by
  have hb : fixWs 43 = 43 := by norm_num [fixWs]
  simp [step, nextByte_in s (by rw [h]; decide), h, hb, dispatch_plus, twoOp,
    pop, oneOp, hst]

/-- `Resolve` inverts the return-marker encoding: for `0 ≤ p < 2^63`,
resolving the value `~p = -(p+1)` yields `p` again. -/
theorem resolve_inot (g : List (ℚ × ℤ)) (p : ℤ) (h0 : 0 ≤ p)
    (h1 : p < 2 ^ 63) : resolve g ((inot p : ℤ) : ℚ) = p := by
  have h0q : (0 : ℚ) ≤ (p : ℚ) := by exact_mod_cast h0
  have h1' : p + 1 ≤ 2 ^ 63 := Int.add_one_le_iff.mpr h1
  have h1q : (p : ℚ) + 1 ≤ 2 ^ 63 := by exact_mod_cast h1'
  have h63 : (0 : ℚ) < 2 ^ 63 := by norm_num
  have hneg : ((inot p : ℤ) : ℚ) < 0 := by
    unfold inot; push_cast; linarith
  have hclamp : clampQ ((inot p : ℤ) : ℚ) (-(2 ^ 63)) (2 ^ 63) =
      ((inot p : ℤ) : ℚ) := by
    unfold clampQ inot
    rw [min_eq_right, max_eq_right]
    · push_cast; linarith
    · push_cast; linarith
  unfold resolve intOf
  rw [if_pos hneg, hclamp]
  unfold ratTrunc inot
  rw [if_neg (by push_cast; linarith)]
  push_cast
  rw [show (-(-((p : ℚ) + 1))) = (p : ℚ) + 1 from by ring]
  rw [show ((p : ℚ) + 1) = ((p + 1 : ℤ) : ℚ) from by push_cast; ring]
  rw [Int.floor_intCast]
  ring

/-- `C` pops a destination, pushes the complement of the PC just past the
`C` opcode, and jumps to the resolved destination. -/
theorem step_C (lib : LibFns) (s : VMState) (v : ℚ) (rest : List ℚ)
    (h : byteAt s.prog s.pc = 67) (hst : s.stack = v :: rest) :
    (step lib s).stack = ((inot (s.pc + 1) : ℤ) : ℚ) :: rest ∧
    (step lib s).pc = resolve s.global v := by
  have hb : fixWs 67 = 67 := by norm_num [fixWs]
  simp [step, nextByte_in s (by rw [h]; decide), h, hb, dispatch_C, pop, hst]

/-- `G` popping an unmodified return marker `~p` jumps to exactly `p`. -/
theorem step_G (lib : LibFns) (s : VMState) (p : ℤ) (rest : List ℚ)
    (h : byteAt s.prog s.pc = 71) (h0 : 0 ≤ p) (h1 : p < 2 ^ 63)
    (hst : s.stack = ((inot p : ℤ) : ℚ) :: rest) :
    (step lib s).pc = p ∧ (step lib s).stack = rest := by
  have hb : fixWs 71 = 71 := by norm_num [fixWs]
  simp [step, nextByte_in s (by rw [h]; decide), h, hb, dispatch_G, pop, hst,
    resolve_inot s.global p h0 h1]

/-! ### Claims C1-C4, C9, C10 -/

/-- C1 (counterexample): running `1 ? 2 ' : 3 ' ;` on a fresh VM terminates
normally having printed exactly `2` — not `3` as the claim states: the
popped condition `1` is non-negative and `?` branches only on negative
values, so execution falls through into the `2 '` arm. -/
theorem claim_C1_counterexample :
    (prescanF 8 c1prog).map
      (fun s => ((runF defaultLib 20 s).2, (runF defaultLib 20 s).1.out,
        (runF defaultLib 20 s).1.diag)) = some (true, [2], []) ∧
    ([2] : List ℚ) ≠ [3] := by
  constructor
  · rw [prescanC1, Option.map_some']
    rfl
  · decide

/-- C1 (amended): running `1 ? 2 ' : 3 ' ;` on a fresh VM from PC 0 until
termination falls through to the then-arm (the popped condition `1` is
non-negative and `?` branches only on negative values), prints exactly the
value `2` on the output sink, and terminates normally with no diagnostic. -/
theorem claim_C1_theorem :
    (prescanF 8 c1prog).map
      (fun s => ((runF defaultLib 20 s).2, (runF defaultLib 20 s).1.out,
        (runF defaultLib 20 s).1.diag)) = some (true, [2], []) := by
  rw [prescanC1, Option.map_some']
  rfl

/-- C2 (counterexample): the literal `1.2.3 ` of `1.2.3 '` lexes to the
value `6/5 = 1.2` with end offset 5 (the exponent digits are accumulated
but never applied, because the literal is terminated by the space rather
than by a third dot), and the program prints `1.2`, not `1200`. -/
theorem claim_C2_counterexample :
    lex c2prog 0 = (6/5, 5) ∧
    (prescanF 8 c2prog).map
      (fun s => ((runF defaultLib 20 s).2, (runF defaultLib 20 s).1.out,
        (runF defaultLib 20 s).1.diag)) = some (true, [6/5], []) ∧
    (6/5 : ℚ) ≠ 1200 := by
  refine ⟨by with_unfolding_all rfl, ?_, by norm_num⟩
  rw [prescanC2, Option.map_some']
  with_unfolding_all rfl

/-- C2 (amended): running `1.2.3 '` on a fresh VM parses the inline literal
as `1.2` (fraction phase entered by the first dot, exponent phase by the
second; the space terminates the literal without applying the pending
exponent, which only a third dot would commit), so `'` prints `1.2`. -/
theorem claim_C2_theorem :
    lex c2prog 0 = (6/5, 5) ∧
    (prescanF 8 c2prog).map
      (fun s => ((runF defaultLib 20 s).2, (runF defaultLib 20 s).1.out,
        (runF defaultLib 20 s).1.diag)) = some (true, [6/5], []) := by
  refine ⟨by with_unfolding_all rfl, ?_⟩
  rw [prescanC2, Option.map_some']
  with_unfolding_all rfl

set_option maxRecDepth 8000 in
/-- C3 (counterexample): on the program `9~G`, after three executed steps
the PC is 8, which is neither in `[0, len] = [0, 3]` nor the sentinel
`kTerminatePc`: `G` resolved the popped `-9` to `~Int(-9) = 8`. -/
theorem claim_C3_counterexample :
    (prescanF 8 c3prog).map
      (fun s => ((runF defaultLib 3 s).1.pc, (runF defaultLib 3 s).2)) =
      some (8, false) ∧
    ¬((0 : ℤ) ≤ 8 ∧ (8 : ℤ) ≤ (c3prog.length : ℤ)) ∧
    (8 : ℤ) ≠ kTerminatePc := by
  refine ⟨?_, by decide, by decide⟩
  rw [prescanC3, Option.map_some']
  rfl

/-- C3 (amended): every byte fetch at an offset outside `[0, len)` returns
the termination byte `X`; the PC may leave `[0, len] ∪ {kTerminatePc}`
after `C`/`G` (see the counterexample), but any step taken from such a PC
fetches `X`, terminates, and leaves the PC unchanged. -/
theorem claim_C3_theorem :
    (∀ (p : List ℕ) (loc : ℤ), loc < 0 ∨ (p.length : ℤ) ≤ loc →
      byteAt p loc = kTerminateByte) ∧
    (∀ (lib : LibFns) (s : VMState), s.pc < 0 ∨ (s.prog.length : ℤ) ≤ s.pc →
      (step lib s).terminate = true ∧ (step lib s).pc = s.pc) :=
  ⟨fun p loc h => by simp [byteAt, h], step_out⟩

/-- C3 (witness): the amended theorem applied at the concrete offset 5 of
the length-3 program `9~G`. -/
theorem claim_C3_theorem_witness :
    byteAt c3prog 5 = kTerminateByte ∧
    (step defaultLib { initState c3prog with pc := 5 }).terminate = true :=
  ⟨claim_C3_theorem.1 c3prog 5 (by decide),
   (claim_C3_theorem.2 defaultLib { initState c3prog with pc := 5 }
     (by decide)).1⟩

/-- C4: the Prescan of `LaBa` does not terminate for any chase fuel — the
backward branch at offset 2 resolves to offset 2 itself (`recent_local`
records `loc + 1` past the `L`, which is the `B`), so the branch-to-branch
chase loop revisits `branch_from_loc = 3`, `branch_target_loc = 2`
forever.  The claim that Prescan terminates on every image is right about
the intent and wrong about the code. -/
theorem claim_C4_theorem :
    (∀ cf : ℕ, prescanF cf labaProg = none) ∧
    (∀ (fuel : ℕ) (froms : List ℤ),
      chase labaProg bt2laba fuel froms 3 2 = none) :=
  ⟨prescanLaba, laba_cycle⟩

/-- C9: resolving the return marker `double(~p)` yields `p` for every PC
`0 ≤ p ≤ len < 2^53`; `C` pushes the marker for the offset just past
itself, and `G` popping an unmodified marker jumps to exactly that
offset. -/
theorem claim_C9_theorem :
    (∀ (g : List (ℚ × ℤ)) (len p : ℤ), 0 ≤ p → p ≤ len →
      len < 2 ^ 53 → resolve g ((inot p : ℤ) : ℚ) = p) ∧
    (∀ (lib : LibFns) (s : VMState) (v : ℚ) (rest : List ℚ),
      byteAt s.prog s.pc = 67 → s.stack = v :: rest →
      (step lib s).stack = ((inot (s.pc + 1) : ℤ) : ℚ) :: rest ∧
      (step lib s).pc = resolve s.global v) ∧
    (∀ (lib : LibFns) (s : VMState) (p : ℤ) (rest : List ℚ),
      byteAt s.prog s.pc = 71 → 0 ≤ p → p < 2 ^ 63 →
      s.stack = ((inot p : ℤ) : ℚ) :: rest →
      (step lib s).pc = p ∧ (step lib s).stack = rest) :=
  ⟨fun g len p h0 h1 h2 =>
    resolve_inot g p h0 (lt_of_le_of_lt h1 (h2.trans (by norm_num))),
   step_C, step_G⟩

/-- C9 (witness): the theorem applied at `p = 5`, and at concrete `C` and
`G` steps. -/
theorem claim_C9_theorem_witness :
    resolve [] ((inot 5 : ℤ) : ℚ) = 5 ∧
    (step defaultLib { initState [67] with stack := [0] }).stack =
      [((inot 1 : ℤ) : ℚ)] ∧
    (step defaultLib { initState [71] with
      stack := [((inot 2 : ℤ) : ℚ)] }).pc = 2 :=
  ⟨claim_C9_theorem.1 [] 5 5 (by decide) (by decide) (by decide),
   (claim_C9_theorem.2.1 defaultLib { initState [67] with stack := [0] } 0 []
     (by decide) rfl).1,
   (claim_C9_theorem.2.2 defaultLib
     { initState [71] with stack := [((inot 2 : ℤ) : ℚ)] } 2 []
     (by decide) (by decide) (by decide) rfl).1⟩

/-- C10: no step fails on an empty stack: `P` on an empty stack leaves it
empty, `+` on an empty stack leaves exactly `[0]` (`0 + 0`), and `Pop`
itself yields `0` from an empty stack. -/
theorem claim_C10_theorem :
    (∀ (lib : LibFns) (s : VMState), byteAt s.prog s.pc = 80 →
      s.stack = [] → (step lib s).stack = []) ∧
    (∀ (lib : LibFns) (s : VMState), byteAt s.prog s.pc = 43 →
      s.stack = [] → (step lib s).stack = [0]) ∧
    pop [] = (0, []) :=
  ⟨step_P, step_plus, rfl⟩

/-- C10 (witness): the theorem applied to one-byte programs `P` and `+`
started with an empty stack. -/
theorem claim_C10_theorem_witness :
    (step defaultLib (initState [80])).stack = [] ∧
    (step defaultLib (initState [43])).stack = [0] :=
  ⟨claim_C10_theorem.1 defaultLib (initState [80]) (by decide) rfl,
   claim_C10_theorem.2.1 defaultLib (initState [43]) (by decide) rfl⟩

/-! ### Claim C8: lexer caching across the VM lifetime -/
/-- Cache consistency: every cached literal value equals the value of
re-parsing at its offset (spec section 3's cache invariant). -/
def cacheOK (s : VMState) : Prop :=
  ∀ (k : ℤ) (v : ℚ), plookup s.predec k = some v → v = (lex s.prog k).1

theorem cacheOK_initState (p : List ℕ) : cacheOK (initState p) := by
  intro k v h
  simp [initState, plookup, alookup] at h

theorem cacheOK_of_eq (s s' : VMState) (hp : s'.prog = s.prog)
    (hd : s'.predec = s.predec) (h : cacheOK s) : cacheOK s' := by
  intro k v hl
  rw [hd] at hl
  rw [hp]
  exact h k v hl

theorem getNumber_frame (s : VMState) (k : ℤ) :
    (getNumber s k).2.2.prog = s.prog ∧
    (getNumber s k).2.2.global = s.global ∧
    (getNumber s k).2.2.stack = s.stack ∧
    (getNumber s k).2.2.pc = s.pc ∧
    (getNumber s k).2.2.var = s.var ∧
    (getNumber s k).2.2.out = s.out ∧
    (getNumber s k).2.2.terminate = s.terminate := by
  unfold getNumber
  rcases h : plookup s.predec k with _ | v <;>
    simp [h]

theorem getNumber_val (s : VMState) (k : ℤ) (hc : cacheOK s) :
    (getNumber s k).1 = (lex s.prog k).1 := by
  unfold getNumber
  rcases h : plookup s.predec k with _ | v
  · simp [h]
  · simp [h]
    exact hc k v h

theorem getNumber_cacheOK (s : VMState) (k : ℤ) (hc : cacheOK s) :
    cacheOK (getNumber s k).2.2 := by
  unfold getNumber
  rcases h : plookup s.predec k with _ | v
  · simp only [h]
    intro k' v' hl
    show v' = (lex s.prog k').1
    by_cases hk : k' = k
    · subst hk
      rw [show (({ s with
          predec := pinsert s.predec k' (lex s.prog k').1,
          bt := btset s.bt (k' + 1) (lex s.prog k').2 } : VMState)).predec =
          pinsert s.predec k' (lex s.prog k').1 from rfl] at hl
      rw [plookup, pinsert, alookup_ainsert_self] at hl
      exact (Option.some.injEq _ _ ▸ hl).symm
    · rw [show (({ s with
          predec := pinsert s.predec k (lex s.prog k).1,
          bt := btset s.bt (k + 1) (lex s.prog k).2 } : VMState)).predec =
          pinsert s.predec k (lex s.prog k).1 from rfl] at hl
      rw [plookup, pinsert, alookup_ainsert_ne _ _ _ _ hk] at hl
      exact hc k' v' hl
  · simp only [h]
    exact hc



theorem nextByte_frame (s : VMState) :
    (nextByte s).2.prog = s.prog ∧ (nextByte s).2.predec = s.predec ∧
    (nextByte s).2.global = s.global ∧ (nextByte s).2.bt = s.bt := by
  unfold nextByte
  split <;> simp

set_option maxHeartbeats 1600000 in
theorem dispatch_cacheOK (lib : LibFns) (s : VMState) (bc : ℕ) :
    (dispatch lib s bc).prog = s.prog ∧
    (cacheOK s → cacheOK (dispatch lib s bc)) := by
  unfold dispatch
  split
  all_goals
    first
      | exact ⟨rfl, fun h => h⟩
      | (dsimp only; split <;> exact ⟨rfl, fun h => h⟩)
      | (refine ⟨(nextByte_frame s).1, fun h => ?_⟩
         exact cacheOK_of_eq s _ (nextByte_frame s).1 (nextByte_frame s).2.1 h)
      | (refine ⟨(getNumber_frame s (s.pc - 1)).1, fun h => ?_⟩
         exact cacheOK_of_eq (getNumber s (s.pc - 1)).2.2 _ rfl rfl
           (getNumber_cacheOK s (s.pc - 1) h))



theorem step_cacheOK (lib : LibFns) (s : VMState) :
    (step lib s).prog = s.prog ∧ (cacheOK s → cacheOK (step lib s)) := by
  obtain ⟨b1, s1, hnb⟩ : ∃ b1 s1, nextByte s = (b1, s1) := ⟨_, _, rfl⟩
  have hfr := nextByte_frame s
  rw [hnb] at hfr
  unfold step
  rw [hnb]
  dsimp only
  by_cases h92 : fixWs b1 = 92
  · rw [if_pos h92]
    obtain ⟨b2, s2, hnb2⟩ : ∃ b2 s2,
        nextByte { s1 with steps := s1.steps + 1 } = (b2, s2) := ⟨_, _, rfl⟩
    have hfr2 := nextByte_frame { s1 with steps := s1.steps + 1 }
    rw [hnb2] at hfr2
    rw [hnb2]
    dsimp only at hfr2 ⊢
    refine ⟨?_, fun h => ?_⟩
    · exact ((dispatch_cacheOK lib s2 (b2 + 256)).1).trans
        (hfr2.1.trans hfr.1)
    · exact (dispatch_cacheOK lib s2 (b2 + 256)).2
        (cacheOK_of_eq _ s2 hfr2.1 hfr2.2.1
          (cacheOK_of_eq s _ hfr.1 hfr.2.1 h))
  · rw [if_neg h92]
    refine ⟨?_, fun h => ?_⟩
    · exact ((dispatch_cacheOK lib { s1 with steps := s1.steps + 1 }
        (fixWs b1)).1).trans hfr.1
    · exact (dispatch_cacheOK lib { s1 with steps := s1.steps + 1 }
        (fixWs b1)).2 (cacheOK_of_eq s _ hfr.1 hfr.2.1 h)



theorem pass1_cacheOK : ∀ (fuel : ℕ) (s : VMState) (r : ℕ → ℤ) (loc : ℤ)
    (s' : VMState), pass1 fuel s r loc = some s' → cacheOK s →
    cacheOK s' ∧ s'.prog = s.prog := by
  intro fuel
  induction fuel with
  | zero =>
    intro s r loc s' hp
    exact absurd hp (by simp [pass1])
  | succ fuel ih =>
    intro s r loc s' hp hc
    unfold pass1 at hp
    dsimp only at hp
    split at hp
    · obtain rfl : s = s' := Option.some.inj hp
      exact ⟨hc, rfl⟩
    · split at hp
      · have h' := ih _ _ _ _ hp (by exact hc)
        exact ⟨h'.1, h'.2⟩
      · split at hp
        · have h' := ih _ _ _ _ hp (by exact hc)
          exact ⟨h'.1, h'.2⟩
        · split at hp
          · -- '@' case
            refine (ih _ _ _ _ hp ?_).imp (fun a => a) (fun hpr => hpr.trans ?_)
            · exact cacheOK_of_eq _ _ rfl rfl
                (getNumber_cacheOK s (loc + 1) hc)
            · exact (getNumber_frame s (loc + 1)).1
          · split at hp
            · -- digit case
              refine (ih _ _ _ _ hp ?_).imp (fun a => a) (fun hpr => hpr.trans ?_)
              · exact getNumber_cacheOK s (loc + 1 - 1) hc
              · exact (getNumber_frame s (loc + 1 - 1)).1
            · have h' := ih _ _ _ _ hp (by exact hc)
              exact ⟨h'.1, h'.2⟩

theorem pass2_frame : ∀ (n : ℕ) (s : VMState) (r : ℕ → ℤ) (pb : ℕ)
    (l l1 l2 : ℤ) (te : List ThenElse),
    ∃ bt', pass2 n s r pb l l1 l2 te = { s with bt := bt' } := by
  intro n
  induction n with
  | zero =>
    intro s r pb l l1 l2 te
    exact ⟨s.bt, rfl⟩
  | succ n ih =>
    intro s r pb l l1 l2 te
    unfold pass2
    dsimp only
    split
    · exact ih _ _ _ _ _ _ _
    · split
      · exact ih _ _ _ _ _ _ _
      · split
        · exact ih _ _ _ _ _ _ _
        · split
          · exact ih _ _ _ _ _ _ _
          · split
            · exact ih _ _ _ _ _ _ _
            · split
              · exact ih _ _ _ _ _ _ _
              · exact ih _ _ _ _ _ _ _

theorem prescan_state (cf : ℕ) (p : List ℕ) (s : VMState)
    (h : prescanF cf p = some s) : cacheOK s ∧ s.prog = p := by
  unfold prescanF at h
  rcases hp1 : pass1 (p.length + 1) (initState p) (fun _ => kTerminatePc) 0
    with _ | s1
  · rw [hp1] at h; simp at h
  · rw [hp1, Option.some_bind] at h
    dsimp only at h
    rcases hp3 : pass3 cf p p.length
        (pass2 p.length s1 (fun _ => kTerminatePc) kTerminateByte kTerminatePc
          kTerminatePc kTerminatePc [⟨kTerminatePc, kTerminatePc⟩]).bt 0
      with _ | bt3
    · rw [hp3] at h; simp at h
    · rw [hp3, Option.map_some'] at h
      obtain rfl : _ = s := Option.some.inj h
      obtain ⟨hc1, hpr1⟩ := pass1_cacheOK _ _ _ _ _ hp1 (cacheOK_initState p)
      obtain ⟨bt', h2⟩ := pass2_frame p.length s1 (fun _ => kTerminatePc)
        kTerminateByte kTerminatePc kTerminatePc kTerminatePc
        [⟨kTerminatePc, kTerminatePc⟩]
      rw [h2]
      constructor
      · exact cacheOK_of_eq s1 _ rfl rfl hc1
      · exact hpr1

/-- The states a VM reaches in one lifetime after construction: the prescan
output and everything obtainable by iterating the run loop's body. -/
inductive ReachesVM (cf : ℕ) (lib : LibFns) (p : List ℕ) : VMState → Prop
  | init (s : VMState) : prescanF cf p = some s → ReachesVM cf lib p s
  | further (s : VMState) : ReachesVM cf lib p s →
      ReachesVM cf lib p (step lib { s with terminate := false })

theorem reach_cacheOK {cf : ℕ} {lib : LibFns} {p : List ℕ} {s : VMState}
    (h : ReachesVM cf lib p s) : cacheOK s ∧ s.prog = p := by
  induction h with
  | init s h0 => exact prescan_state cf p s h0
  | further s hr ih =>
    have hs := step_cacheOK lib { s with terminate := false }
    exact ⟨hs.2 (cacheOK_of_eq s _ rfl rfl ih.1), hs.1.trans ih.2⟩



theorem claim_C8_theorem :
    (∀ (s s' : VMState) (k : ℤ), s.prog = s'.prog → cacheOK s →
      cacheOK s' → (getNumber s k).1 = (getNumber s' k).1) ∧
    (∀ (s : VMState) (k : ℤ), cacheOK s →
      (getNumber s k).1 = (lex s.prog k).1) ∧
    (∀ (cf : ℕ) (lib : LibFns) (p : List ℕ) (s : VMState),
      ReachesVM cf lib p s → cacheOK s) := by
  refine ⟨fun s s' k hpr hc hc' => ?_,
    fun s k hc => getNumber_val s k hc,
    fun cf lib p s h => (reach_cacheOK h).1⟩
  rw [getNumber_val s k hc, getNumber_val s' k hc', hpr]

theorem claim_C8_counterexample :
    ((getNumber (initState c8prog) 0).1, (getNumber (initState c8prog) 0).2.1)
      = ((1 : ℚ), (1 : ℤ)) ∧
    (prescanF 8 c8prog).map
      (fun s => ((getNumber s 0).1, (getNumber s 0).2.1)) =
      some ((1 : ℚ), (2 : ℤ)) ∧
    ((1 : ℚ), (1 : ℤ)) ≠ ((1 : ℚ), (2 : ℤ)) := by
  refine ⟨rfl, ?_, by decide⟩
  rw [prescanC8, Option.map_some']
  rfl

theorem claim_C8_theorem_witness :
    (getNumber (initState c8prog) 0).1 = (getNumber sFc8 0).1 :=
  claim_C8_theorem.1 (initState c8prog) sFc8 0 rfl
    (cacheOK_initState c8prog)
    (claim_C8_theorem.2.2 8 defaultLib c8prog sFc8
      (ReachesVM.init sFc8 prescanC8))

end SimpleVM
